import Mathlib

/-!
Shallow embedding of the `gcstarget` repository: a GCS-backed filesystem
adapter (`src/luigicontrib/gcs.py`, with a legacy copy at `src/gcs.py`).

The backing object store (the `googleapiclient` service object) is modelled
as an explicit list of stored objects with deterministic get / list-by-key
/ insert / delete semantics; HTTP failures are modelled where a claim
needs them by quantifying over the injected response.  Strings are
modelled as `List Char`, byte payloads as `List Nat`.
-/

set_option autoImplicit false

namespace Gcs

abbrev Chars := List Char
abbrev Bytes := List Nat

/-! ## URL splitting (model of Python 2's `urlparse.urlsplit`)

The source parses object locators with the standard-library `urlsplit`.
We model its behaviour: an initial `scheme:` made of scheme characters is
stripped; if the remainder starts with `//`, the netloc runs up to the
first of `/`, `?`, `#`; the path then runs up to the first of `?`, `#`.
Only the `(netloc, path)` components are used by the source. -/

def scheme_chars (c : Char) : Bool :=
  c.isAlphanum || c = '+' || c = '-' || c = '.'

/-- Split a char list at its first `':'`, returning the parts before and
after it (the model of `url.find(':')` followed by slicing). -/
def findColon : Chars → Option (Chars × Chars)
  | [] => none
  | c :: rest =>
    if c = ':' then some ([], rest)
    else match findColon rest with
      | some (before, after) => some (c :: before, after)
      | none => none

/-- Strip a leading `scheme:` when the part before the first `':'` is a
non-empty run of scheme characters, as `urlsplit` does. -/
def splitScheme (url : Chars) : Chars :=
  match findColon url with
  | some (before, after) =>
    if before ≠ [] ∧ before.all scheme_chars then after else url
  | none => url

def notNetlocDelim (c : Char) : Bool :=
  ¬ (c = '/' ∨ c = '?' ∨ c = '#')

def notQueryFragDelim (c : Char) : Bool :=
  ¬ (c = '?' ∨ c = '#')

/-- `(netloc, path)` of `urlsplit`: after the scheme, a `//` introduces the
netloc (up to `/`, `?` or `#`); the path stops at `?` or `#`. -/
def urlsplitNetlocPath (url : Chars) : Chars × Chars :=
  let rest := splitScheme url
  match rest with
  | '/' :: '/' :: r =>
    (r.takeWhile notNetlocDelim,
     (r.dropWhile notNetlocDelim).takeWhile notQueryFragDelim)
  | _ => ([], rest.takeWhile notQueryFragDelim)

/-- `GcsFileSystem.path_to_bucket_and_key` (`src/luigicontrib/gcs.py:135`,
identical to `_path_to_bucket_and_key` in `src/gcs.py:114`): urlsplit the
locator, the netloc is the bucket, the path minus its first character
(`path[1:]`) is the key. -/
def path_to_bucket_and_key (path : Chars) : Chars × Chars :=
  let p := urlsplitNetlocPath path
  (p.1, p.2.drop 1)

/-! ## Small path helpers -/

/-- `GcsFileSystem._is_root`: the key is empty or a single `/`. -/
def _is_root (key : Chars) : Bool :=
  key.length = 0 || key = ['/']

/-- `GcsFileSystem._add_path_delimiter`: append `/` unless the key already
ends in `/` (`key[-1:] == '/'`). -/
def _add_path_delimiter (key : Chars) : Chars :=
  if key.getLast? = some '/' then key else key ++ ['/']

/-! ## Chunk-size normalisation -/

def MIN_CHUNK_SIZE : Nat := 256 * 1024

/-- `GcsFileSystem.correct_chunk_size`: if the requested size is not a
multiple of 256 KiB, return `(chunk_size / MIN + 1) * MIN` (Python 2
integer division, i.e. floor), else return it unchanged. -/
def correct_chunk_size (chunk_size : Nat) : Nat :=
  if chunk_size % MIN_CHUNK_SIZE ≠ 0 then
    (chunk_size / MIN_CHUNK_SIZE + 1) * MIN_CHUNK_SIZE
  else
    chunk_size

/-! ## The backing object store

Model of the remote store reached through `self.gcs_service`: a list of
stored objects.  `objects().get` finds the (unique, most recently
inserted) object with the given bucket and key; `objects().list` with a
`prefix` argument returns every object of the bucket whose key starts
with it; `objects().insert` replaces any object at the same locator;
`objects().delete` removes it. -/

structure GcsObject where
  bucket : Chars
  key : Chars
  content : Bytes
  deriving DecidableEq, Repr

abbrev GcsState := List GcsObject

/-- `objects().get(bucket, object=key).execute()` in the success case:
the stored object at the locator, if any. -/
def getObject (st : GcsState) (bucket key : Chars) : Option GcsObject :=
  st.find? (fun o => o.bucket = bucket ∧ o.key = key)

/-- `objects().list(bucket, prefix=pfx).execute()['items']`: the objects
of the bucket whose key starts with `pfx`. -/
def listObjects (st : GcsState) (bucket pfx : Chars) : List GcsObject :=
  st.filter (fun o => o.bucket = bucket ∧ pfx.isPrefixOf o.key)

/-- `objects().insert(...)`: store content at a locator, replacing any
previous object there. -/
def insertObject (st : GcsState) (bucket key : Chars) (content : Bytes) :
    GcsState :=
  ⟨bucket, key, content⟩ ::
    st.filter (fun o => ¬ (o.bucket = bucket ∧ o.key = key))

/-- `objects().delete(bucket, object=key)`: remove the object at a
locator. -/
def deleteObject (st : GcsState) (bucket key : Chars) : GcsState :=
  st.filter (fun o => ¬ (o.bucket = bucket ∧ o.key = key))

/-! ## `isdir`, `_get_object` and `exists`

`_get_object` wraps `objects().get` in a try/except: a 404 `HttpError`
is absorbed into `None`, any other `HttpError` is re-raised
(`src/luigicontrib/gcs.py:92-106`).  To state that behaviour we
parametrise by the HTTP response of the metadata call; the deterministic
store produces `found` exactly when the object is present and a 404
otherwise. -/

/-- Response of the `objects().get` metadata call: either the object's
metadata or an `HttpError` with a status code. -/
inductive GetResp where
  | found (o : GcsObject)
  | httpErr (status : Nat)
  deriving DecidableEq, Repr

/-- The metadata response the deterministic store gives: the object when
present, otherwise a 404. -/
def serviceGet (st : GcsState) (bucket key : Chars) : GetResp :=
  match getObject st bucket key with
  | some o => GetResp.found o
  | none => GetResp.httpErr 404

/-- `GcsFileSystem._get_object` on a given metadata response: absorb a
404 into `none`, re-raise (`Except.error`) any other `HttpError`. -/
def _get_object (resp : GetResp) : Except Nat (Option GcsObject) :=
  match resp with
  | GetResp.found o => Except.ok (some o)
  | GetResp.httpErr s =>
    if s ≠ 404 then Except.error s else Except.ok none

/-- `GcsFileSystem.isdir` (`src/luigicontrib/gcs.py:54`): true for the
bucket root, else true iff listing the bucket with the `/`-delimited key
as prefix returns at least one item. -/
def isdir (st : GcsState) (path : Chars) : Bool :=
  let p := path_to_bucket_and_key path
  if _is_root p.2 then true
  else decide (listObjects st p.1 (_add_path_delimiter p.2) ≠ [])

/-- `GcsFileSystem.exists` body, on a given metadata response: found →
`True`; absent → fall back to `isdir`; a non-404 `HttpError` from
`_get_object` propagates. -/
def exists_core (st : GcsState) (path : Chars) (resp : GetResp) :
    Except Nat Bool :=
  match _get_object resp with
  | Except.error s => Except.error s
  | Except.ok (some _) => Except.ok true
  | Except.ok none => Except.ok (isdir st path)

/-- `GcsFileSystem.exists` under the deterministic store (no injected
HTTP failures): the object is present, or the path is a "directory". -/
def exists_ (st : GcsState) (path : Chars) : Bool :=
  let p := path_to_bucket_and_key path
  match getObject st p.1 p.2 with
  | some _ => true
  | none => isdir st path

/-! ## `remove`

`GcsFileSystem.remove(path, recursive=True, skip_trash=True)`: return
`False` when the path does not exist; raise `FileSystemException` on the
bucket root; delete and return `True` on an exact object; with
`recursive` on an existing "directory", delete every listed object and
return `True`; otherwise raise `FileSystemException`.

The two copies differ in one character string: the current module
(`src/luigicontrib/gcs.py:124`) guards the directory branch with
`self.isdir(path)`, the legacy module (`src/gcs.py:103`) with
`self.isdir(key)`.  Both are embedded; the guard is a parameter. -/

/-- Outcome of `remove`: a returned boolean, or a raised
`FileSystemException` (root removal, or directory removal without the
recursive flag). -/
inductive RemoveOutcome where
  | ret (b : Bool)
  | exnRoot (bucket : Chars)
  | exnDir (key : Chars)
  deriving DecidableEq, Repr

/-- `remove`, returning its outcome together with the sequence of
`objects().delete` calls issued (as `(bucket, key)` pairs), with the
directory-branch guard abstracted. -/
def removeWith (dirGuard : GcsState → Chars → Chars → Bool)
    (st : GcsState) (path : Chars) (recursive : Bool) :
    RemoveOutcome × List (Chars × Chars) :=
  if exists_ st path = false then (RemoveOutcome.ret false, [])
  else
    let p := path_to_bucket_and_key path
    if _is_root p.2 then (RemoveOutcome.exnRoot p.1, [])
    else match getObject st p.1 p.2 with
      | some _ => (RemoveOutcome.ret true, [(p.1, p.2)])
      | none =>
        if recursive && dirGuard st path p.2 then
          (RemoveOutcome.ret true,
           (listObjects st p.1 (_add_path_delimiter p.2)).map
             (fun o => (p.1, o.key)))
        else (RemoveOutcome.exnDir p.2, [])

/-- `remove` of the current module: the directory guard is
`self.isdir(path)` on the full locator. -/
def remove (st : GcsState) (path : Chars) (recursive : Bool) :
    RemoveOutcome × List (Chars × Chars) :=
  removeWith (fun st' path' _ => isdir st' path') st path recursive

/-- `remove` of the legacy module `src/gcs.py`: the directory guard is
`self.isdir(key)`, i.e. `isdir` applied to the bare key. -/
def remove_legacy (st : GcsState) (path : Chars) (recursive : Bool) :
    RemoveOutcome × List (Chars × Chars) :=
  removeWith (fun st' _ key' => isdir st' key') st path recursive

/-! ## Uploads

`put` inserts the whole local file body at the parsed locator.
`put_multipart` first decides the strategy: single-shot when the source
size is at most the requested chunk size or below 256 KiB, else a
resumable upload of `correct_chunk_size`-sized chunks
(`src/luigicontrib/gcs.py:150-195`).  The store receives the
concatenation of the transmitted chunks.  The upload call made is
recorded so the chosen strategy is observable. -/

/-- Split a byte list into consecutive chunks of `n` bytes (the final
chunk may be shorter), with explicit fuel for termination; fuel
`l.length` is always enough when `1 ≤ n`. -/
def chunksOfGo (n : Nat) : Nat → Bytes → List Bytes
  | _, [] => []
  | 0, l => [l]
  | fuel + 1, b :: rest =>
    (b :: rest).take n :: chunksOfGo n fuel ((b :: rest).drop n)

/-- The chunk sequence `MediaFileUpload(..., chunksize=n)` transmits. -/
def chunksOf (n : Nat) (l : Bytes) : List Bytes :=
  chunksOfGo n l.length l

/-- The insert call an upload performs against the store. -/
inductive UploadCall where
  | singleShot (bucket key : Chars) (body : Bytes)
  | resumable (bucket key : Chars) (chunkSize : Nat) (chunks : List Bytes)
  deriving DecidableEq, Repr

/-- `GcsFileSystem.put`: one whole-body `objects().insert` at the parsed
locator; returns `(bucket, key)`. -/
def put (st : GcsState) (body : Bytes) (dest : Chars) :
    GcsState × (Chars × Chars) × UploadCall :=
  let p := path_to_bucket_and_key dest
  (insertObject st p.1 p.2 body, p, UploadCall.singleShot p.1 p.2 body)

/-- `GcsFileSystem.put_multipart` (happy path, no injected failures; the
per-chunk retry wrapper is modelled separately): choose single-shot when
`source_size <= chunk_size or source_size < MIN_CHUNK_SIZE`, else send
`correct_chunk_size chunk_size`-sized chunks resumably; the store ends up
with the concatenation of the sent chunks; returns `(bucket, key)`. -/
def put_multipart (st : GcsState) (body : Bytes) (dest : Chars)
    (chunk_size : Nat) : GcsState × (Chars × Chars) × UploadCall :=
  let source_size := body.length
  if source_size ≤ chunk_size ∨ source_size < MIN_CHUNK_SIZE then
    put st body dest
  else
    let cs := correct_chunk_size chunk_size
    let p := path_to_bucket_and_key dest
    let chunks := chunksOf cs body
    (insertObject st p.1 p.2 chunks.flatten, p,
     UploadCall.resumable p.1 p.2 cs chunks)

/-! ## Reading -/

/-- `GcsFileSystem.read`: `objects().get_media` on the parsed locator —
the stored body, when the object is present. -/
def read (st : GcsState) (name : Chars) : Option Bytes :=
  let p := path_to_bucket_and_key name
  (getObject st p.1 p.2).map (fun o => o.content)

/-- Python 2 `str.splitlines(True)` on a byte string, used by
`ReadableGcsFile.__iter__`: split after every `\n`, `\r` or `\r\n`,
keeping the line terminators. -/
def splitlinesKeep : Bytes → List Bytes
  | [] => []
  | 10 :: rest => [10] :: splitlinesKeep rest
  | 13 :: 10 :: rest => [13, 10] :: splitlinesKeep rest
  | 13 :: rest => [13] :: splitlinesKeep rest
  | b :: rest =>
    match splitlinesKeep rest with
    | [] => [[b]]
    | line :: lines => (b :: line) :: lines

/-- The lines `ReadableGcsFile.__iter__` yields for a path: the fetched
body split with `splitlines(True)`. -/
def readLines (st : GcsState) (name : Chars) : Option (List Bytes) :=
  (read st name).map splitlinesKeep

/-! ## The per-chunk retry wrapper

`put_multipart` wraps each `next_chunk()` call in
`@retry(stop_max_attempt_number=5, wait_exponential_multiplier=1000,
retry_on_exception=should_retry)` (`src/luigicontrib/gcs.py:179-189`).
The `retrying` library semantics: run attempt 1, 2, …; on success return
the value; on an exception for which the predicate is false, re-raise it
at once; on an exception for which it is true, re-raise it if the failed
attempt's number has reached `stop_max_attempt_number`, else sleep
`wait_exponential_multiplier * 2 ^ attempt_number` milliseconds (capped
at its default maximum) and go again.  The attempt outcomes are supplied
as an oracle indexed by attempt number. -/

/-- A raised Python failure: an `HttpError` carrying a response status,
or anything else. -/
inductive PyFailure where
  | httpError (status : Nat)
  | otherFailure
  deriving DecidableEq, Repr

/-- `should_retry` from `put_multipart`: the failure is an `HttpError`
with response status in `[500, 502, 503, 504]`. -/
def should_retry : PyFailure → Bool
  | PyFailure.httpError s => s = 500 || s = 502 || s = 503 || s = 504
  | PyFailure.otherFailure => false

/-- The `retrying` library's exponential sleep in milliseconds for a
failure of attempt `attemptNumber`:
`wait_exponential_multiplier * 2 ^ attemptNumber`, capped at the default
maximum. -/
def waitExponentialMs (multiplier attemptNumber : Nat) : Nat :=
  min (multiplier * 2 ^ attemptNumber) 1073741823

/-- Result of a retried call: the final outcome (returned value or
propagated failure), the number of the attempt that produced it, and the
sleeps performed between attempts, in order. -/
structure RetryTrace (α : Type) where
  result : Except PyFailure α
  finalAttempt : Nat
  sleepsMs : List Nat

/-- The `retrying` loop from attempt `attemptNumber` with the given
attempt budget and structural fuel (fuel ≥ maxAttempts − attemptNumber
keeps the fuel branch unreachable). -/
def retryGo {α : Type} (outcomes : Nat → Except PyFailure α)
    (maxAttempts : Nat) : Nat → Nat → RetryTrace α
  | attemptNumber, fuel =>
    match outcomes attemptNumber with
    | Except.ok v => ⟨Except.ok v, attemptNumber, []⟩
    | Except.error f =>
      if should_retry f then
        if maxAttempts ≤ attemptNumber then
          ⟨Except.error f, attemptNumber, []⟩
        else match fuel with
          | 0 => ⟨Except.error f, attemptNumber, []⟩
          | fuel' + 1 =>
            let t := retryGo outcomes maxAttempts (attemptNumber + 1) fuel'
            ⟨t.result, t.finalAttempt,
             waitExponentialMs 1000 attemptNumber :: t.sleepsMs⟩
      else ⟨Except.error f, attemptNumber, []⟩

/-- One `load_chunk(request)` call as decorated in `put_multipart`:
5 attempts maximum, 1000 ms exponential-backoff multiplier. -/
def load_chunk {α : Type} (outcomes : Nat → Except PyFailure α) :
    RetryTrace α :=
  retryGo outcomes 5 1 5

/-! ## The atomic write handle

`AtomicGcsFile.__init__(self, path, fs)` takes two required positional
parameters (`src/luigicontrib/gcs.py:221`).  `GcsFileSystem.open_write`
calls `AtomicGcsFile(name)` with a single argument
(`src/luigicontrib/gcs.py:213`), while `GcsTarget.open('w')` calls
`AtomicGcsFile(self.path, self.fs)` with both
(`src/luigicontrib/gcs.py:288`).  The Python call protocol is embedded:
a call supplying the wrong number of positional arguments raises
`TypeError`. -/

/-- An argument passed positionally to `AtomicGcsFile`: the destination
path, or a reference to a `GcsFileSystem` (identified by an id). -/
inductive PyArg where
  | strA (s : Chars)
  | fsA (fsId : Nat)
  deriving DecidableEq, Repr

/-- The write handle: destination path plus the filesystem it is bound
to. -/
structure AtomicGcsFile where
  path : Chars
  fsId : Nat
  deriving DecidableEq, Repr

/-- Calling the `AtomicGcsFile` class with a positional argument list:
exactly `(path, fs)` constructs the handle; any other shape raises
`TypeError`. -/
def callAtomicGcsFile (args : List PyArg) :
    Except Unit AtomicGcsFile :=
  match args with
  | [PyArg.strA p, PyArg.fsA i] => Except.ok ⟨p, i⟩
  | _ => Except.error ()

/-- `GcsFileSystem.open_write` as written: `AtomicGcsFile(name)` — one
positional argument. -/
def open_write (name : Chars) : Except Unit AtomicGcsFile :=
  callAtomicGcsFile [PyArg.strA name]

/-- The `mode == 'w'` branch of `GcsTarget.open`:
`AtomicGcsFile(self.path, self.fs)` — both arguments. -/
def gcsTarget_open_w (fsId : Nat) (path : Chars) :
    Except Unit AtomicGcsFile :=
  callAtomicGcsFile [PyArg.strA path, PyArg.fsA fsId]

/-- `AtomicGcsFile.move_to_final_destination`: commit the staged bytes
to the handle's remote path through `put_multipart` with the default
64 MiB chunk size. -/
def move_to_final_destination (f : AtomicGcsFile) (staged : Bytes)
    (st : GcsState) : GcsState × (Chars × Chars) × UploadCall :=
  put_multipart st staged f.path 67108864

/-! ## Concrete data used by witnesses and counterexamples -/

/-- Store with one object `dd/x` in bucket `b`: the key `dd` is a
non-empty "directory" with no exact object. -/
def stC10 : GcsState := [⟨"b".toList, "dd/x".toList, [1]⟩]

/-- Locator of the directory `dd` in bucket `b`. -/
def pathC10 : Chars := "gcs://b/dd".toList

/-! ## Helper lemmas -/

theorem chunksOfGo_flatten (n : Nat) :
    ∀ (fuel : Nat) (l : Bytes), (chunksOfGo n fuel l).flatten = l := by
  intro fuel
  induction fuel with
  | zero =>
    intro l
    cases l <;> simp [chunksOfGo]
  | succ fuel ih =>
    intro l
    cases l with
    | nil => simp [chunksOfGo]
    | cons b rest =>
      simp [chunksOfGo, ih]

theorem chunksOf_flatten (n : Nat) (l : Bytes) :
    (chunksOf n l).flatten = l :=
  chunksOfGo_flatten n l.length l

theorem splitlinesKeep_flatten :
    ∀ l : Bytes, (splitlinesKeep l).flatten = l := by
  intro l
  induction l using splitlinesKeep.induct with
  | case1 => simp [splitlinesKeep]
  | case2 rest ih => simp [splitlinesKeep, ih]
  | case3 rest ih => simp [splitlinesKeep, ih]
  | case4 rest h ih => simp [splitlinesKeep, ih]
  | case5 b rest h1 h2 h3 hs ih =>
    rw [splitlinesKeep]
    · rw [hs]
      have hrest : rest = [] := by rw [← ih, hs]; rfl
      subst hrest
      rfl
    · exact h1
    · exact h2
    · exact h3
  | case6 b rest h1 h2 h3 line lines hs ih =>
    rw [splitlinesKeep]
    · rw [hs]
      rw [hs] at ih
      simpa using ih
    · exact h1
    · exact h2
    · exact h3

theorem getObject_insertObject (st : GcsState) (bucket key : Chars)
    (content : Bytes) :
    getObject (insertObject st bucket key content) bucket key =
      some ⟨bucket, key, content⟩ := by
  simp [getObject, insertObject, List.find?]

theorem retryGo_spec {α : Type} (outcomes : Nat → Except PyFailure α) :
    ∀ (fuel a : Nat), 0 < a → a ≤ 5 → 5 ≤ a + fuel →
      (a ≤ (retryGo outcomes 5 a fuel).finalAttempt ∧
       (retryGo outcomes 5 a fuel).finalAttempt ≤ 5) ∧
      (retryGo outcomes 5 a fuel).result =
        outcomes (retryGo outcomes 5 a fuel).finalAttempt ∧
      (∀ j, a ≤ j → j < (retryGo outcomes 5 a fuel).finalAttempt →
        ∃ g, outcomes j = Except.error g ∧ should_retry g = true) ∧
      (∀ f, (retryGo outcomes 5 a fuel).result = Except.error f →
        should_retry f = true → (retryGo outcomes 5 a fuel).finalAttempt = 5) ∧
      (retryGo outcomes 5 a fuel).sleepsMs =
        (List.range' a ((retryGo outcomes 5 a fuel).finalAttempt - a)).map
          (waitExponentialMs 1000) := by
  intro fuel
  induction fuel with
  | zero =>
    intro a ha0 ha5 hfa
    have haeq : a = 5 := by omega
    subst haeq
    cases h : outcomes 5 with
    | ok v =>
      have ht : retryGo outcomes 5 5 0 = ⟨Except.ok v, 5, []⟩ := by
        rw [retryGo, h]
      rw [ht]
      refine ⟨⟨le_refl _, le_refl _⟩, h.symm, ?_, ?_, by simp⟩
      · intro j h1 h2
        exfalso
        simp at h2
        omega
      · intro f' heq hr'
        rfl
    | error f =>
      have ht : retryGo outcomes 5 5 0 = ⟨Except.error f, 5, []⟩ := by
        rw [retryGo, h]
        by_cases hr : should_retry f = true <;> simp [hr]
      rw [ht]
      refine ⟨⟨le_refl _, le_refl _⟩, h.symm, ?_, ?_, by simp⟩
      · intro j h1 h2
        exfalso
        simp at h2
        omega
      · intro f' heq hr'
        rfl
  | succ fuel ih =>
    intro a ha0 ha5 hfa
    cases h : outcomes a with
    | ok v =>
      have ht : retryGo outcomes 5 a (fuel + 1) = ⟨Except.ok v, a, []⟩ := by
        rw [retryGo, h]
      rw [ht]
      refine ⟨⟨le_refl _, ha5⟩, h.symm, ?_, ?_, by simp⟩
      · intro j h1 h2
        exfalso
        simp at h2
        omega
      · intro f' heq hr'
        exact absurd heq (by simp)
    | error f =>
      by_cases hr : should_retry f = true
      · by_cases hle : 5 ≤ a
        · have haeq : a = 5 := by omega
          subst haeq
          have ht : retryGo outcomes 5 5 (fuel + 1) = ⟨Except.error f, 5, []⟩ := by
            rw [retryGo, h]
            simp [hr]
          rw [ht]
          refine ⟨⟨le_refl _, le_refl _⟩, h.symm, ?_, ?_, by simp⟩
          · intro j h1 h2
            exfalso
            simp at h2
            omega
          · intro f' heq hr'
            rfl
        · have ht : retryGo outcomes 5 a (fuel + 1) =
              ⟨(retryGo outcomes 5 (a + 1) fuel).result,
               (retryGo outcomes 5 (a + 1) fuel).finalAttempt,
               waitExponentialMs 1000 a ::
                 (retryGo outcomes 5 (a + 1) fuel).sleepsMs⟩ := by
            rw [retryGo, h]
            simp [hr, hle]
          obtain ⟨⟨h1a, h1b⟩, h2, h3, h4, h5⟩ :=
            ih (a + 1) (by omega) (by omega) (by omega)
          rw [ht]
          refine ⟨⟨Nat.le_of_succ_le h1a, h1b⟩, h2, ?_, h4, ?_⟩
          · intro j hja hjf
            rcases Nat.eq_or_lt_of_le hja with hja' | hja'
            · exact ⟨f, hja' ▸ h, hr⟩
            · exact h3 j hja' hjf
          · have hsub : (retryGo outcomes 5 (a + 1) fuel).finalAttempt - a =
                ((retryGo outcomes 5 (a + 1) fuel).finalAttempt - (a + 1)) + 1 := by
              omega
            rw [hsub, List.range'_succ, List.map_cons, h5]
      · have ht : retryGo outcomes 5 a (fuel + 1) = ⟨Except.error f, a, []⟩ := by
          rw [retryGo, h]
          simp [hr]
        rw [ht]
        refine ⟨⟨le_refl _, ha5⟩, h.symm, ?_, ?_, by simp⟩
        · intro j h1 h2
          exfalso
          simp at h2
          omega
        · intro f' heq hr'
          have heq' : f = f' := by simpa using heq
          subst heq'
          exact absurd hr' hr

/-- C1: the per-chunk retry wrapper of `put_multipart` (the
`@retry`-decorated `load_chunk`) makes between 1 and 5 attempts; its
outcome is exactly the final attempt's outcome, propagated to the
caller; every attempt before the final one failed with a failure
classified Transient by `should_retry` — so the wrapper retries if and
only if the raised failure is an `HttpError` with response status in
{500, 502, 503, 504}, and a Fatal failure propagates immediately with no
further attempts; a propagated Transient failure means all 5 attempts
were exhausted; and the backoff slept before the (j+1)-st attempt is the
exponential `1000 · 2^j` milliseconds, i.e. exponential growth on a
1-second base unit. -/
theorem C1_load_chunk_retry_policy {α : Type}
    (outcomes : Nat → Except PyFailure α) :
    (1 ≤ (load_chunk outcomes).finalAttempt ∧
      (load_chunk outcomes).finalAttempt ≤ 5) ∧
    (load_chunk outcomes).result = outcomes (load_chunk outcomes).finalAttempt ∧
    (∀ j, 1 ≤ j → j < (load_chunk outcomes).finalAttempt →
      ∃ g, outcomes j = Except.error g ∧ should_retry g = true) ∧
    (∀ f, (load_chunk outcomes).result = Except.error f →
      should_retry f = true → (load_chunk outcomes).finalAttempt = 5) ∧
    (∀ f, should_retry f = true ↔
      ∃ s, f = PyFailure.httpError s ∧
        (s = 500 ∨ s = 502 ∨ s = 503 ∨ s = 504)) ∧
    (load_chunk outcomes).sleepsMs =
      (List.range' 1 ((load_chunk outcomes).finalAttempt - 1)).map
        (waitExponentialMs 1000) := by
  obtain ⟨h1, h2, h3, h4, h5⟩ :=
    retryGo_spec outcomes 5 1 (by omega) (by omega) (by omega)
  refine ⟨h1, h2, h3, h4, ?_, h5⟩
  intro f
  cases f with
  | httpError s =>
    simp only [should_retry]
    constructor
    · intro hs
      refine ⟨s, rfl, ?_⟩
      have := hs
      simp only [Bool.or_eq_true, decide_eq_true_eq] at this
      tauto
    · rintro ⟨s', hs', hmem⟩
      cases hs'
      simp only [Bool.or_eq_true, decide_eq_true_eq]
      tauto
  | otherFailure =>
    simp [should_retry]

theorem C1_load_chunk_retry_policy_witness :
    (load_chunk (fun _ =>
      (Except.error (PyFailure.httpError 503) : Except PyFailure Nat))).finalAttempt ≤ 5 :=
  (C1_load_chunk_retry_policy
    (fun _ => (Except.error (PyFailure.httpError 503) : Except PyFailure Nat))).1.2

/-- C2 counterexample: the claim as stated fails at requested chunk
size 0 — since `0 % 262144 = 0`, `correct_chunk_size 0` is returned
unchanged as 0, which is a multiple of 256 KiB but not a positive one. -/
theorem C2_zero_not_positive :
    correct_chunk_size 0 = 0 ∧ ¬ (0 < correct_chunk_size 0) := by
  decide

/-- C2 (amended): for every requested chunk size `c`,
`correct_chunk_size c` is a multiple of 256 KiB that is at least `c`,
and it is positive whenever `c` is positive; it is `c` itself when `c`
is already a multiple of 256 KiB, and otherwise it is the least
multiple of 256 KiB that is `≥ c`, i.e. `c` rounded up (never down) to
the next multiple. -/
theorem C2_correct_chunk_size_amended (c : Nat) :
    MIN_CHUNK_SIZE ∣ correct_chunk_size c ∧
    c ≤ correct_chunk_size c ∧
    (0 < c → 0 < correct_chunk_size c) ∧
    (MIN_CHUNK_SIZE ∣ c → correct_chunk_size c = c) ∧
    (∀ m, MIN_CHUNK_SIZE ∣ m → c ≤ m → correct_chunk_size c ≤ m) := by
  by_cases hc : c % MIN_CHUNK_SIZE = 0
  · have hcc : correct_chunk_size c = c := by
      simp [correct_chunk_size, hc]
    refine ⟨?_, ?_, ?_, ?_, ?_⟩
    · rw [hcc]; exact Nat.dvd_of_mod_eq_zero hc
    · rw [hcc]
    · intro h; rw [hcc]; exact h
    · intro _; exact hcc
    · intro m _ hm; rw [hcc]; exact hm
  · have hcc : correct_chunk_size c =
        (c / MIN_CHUNK_SIZE + 1) * MIN_CHUNK_SIZE := by
      simp [correct_chunk_size, hc]
    refine ⟨?_, ?_, ?_, ?_, ?_⟩
    · rw [hcc]; exact dvd_mul_left _ _
    · rw [hcc]; simp only [MIN_CHUNK_SIZE] at *; omega
    · intro _; rw [hcc]; simp only [MIN_CHUNK_SIZE] at *; omega
    · intro hd
      obtain ⟨q, rfl⟩ := hd
      simp [MIN_CHUNK_SIZE, Nat.mul_mod_right] at hc
    · intro m hmd hm
      obtain ⟨q, rfl⟩ := hmd
      rw [hcc]
      simp only [MIN_CHUNK_SIZE] at *
      omega

theorem C2_correct_chunk_size_amended_witness :
    0 < 300000 ∧ 0 < correct_chunk_size 300000 :=
  ⟨by decide, (C2_correct_chunk_size_amended 300000).2.2.1 (by decide)⟩

/-- C3: `put_multipart` returns the `(bucket, key)` pair parsed from the
destination path; it makes a single-shot whole-body upload when the
source size is at most the requested chunk size or below 256 KiB, and
otherwise a resumable chunked upload with the normalized chunk size —
so single-shot is chosen if and only if `s ≤ c ∨ s < 256 KiB`. -/
theorem C3_put_multipart_strategy (st : GcsState) (body : Bytes)
    (dest : Chars) (c : Nat) :
    (put_multipart st body dest c).2.1 = path_to_bucket_and_key dest ∧
    ((body.length ≤ c ∨ body.length < MIN_CHUNK_SIZE) →
      (put_multipart st body dest c).2.2 =
        UploadCall.singleShot (path_to_bucket_and_key dest).1
          (path_to_bucket_and_key dest).2 body) ∧
    (¬ (body.length ≤ c ∨ body.length < MIN_CHUNK_SIZE) →
      (put_multipart st body dest c).2.2 =
        UploadCall.resumable (path_to_bucket_and_key dest).1
          (path_to_bucket_and_key dest).2 (correct_chunk_size c)
          (chunksOf (correct_chunk_size c) body)) := by
  by_cases h : body.length ≤ c ∨ body.length < MIN_CHUNK_SIZE
  · refine ⟨?_, fun _ => ?_, fun hn => absurd h hn⟩ <;>
      simp [put_multipart, put, h]
  · refine ⟨?_, fun hy => absurd hy h, fun _ => ?_⟩ <;>
      simp [put_multipart, h]

theorem C3_put_multipart_strategy_witness :
    (put_multipart [] [1, 2, 3] ("gcs://b/k".toList) 67108864).2.2 =
      UploadCall.singleShot ("b".toList) ("k".toList) [1, 2, 3] :=
  (C3_put_multipart_strategy [] [1, 2, 3] ("gcs://b/k".toList) 67108864).2.1
    (by decide)

/-- C4: the committed write handle stages locally and commits through
`put_multipart` (the upload strategy selector), and the `GcsTarget`
write path constructs it with both `path` and `fs`; but
`GcsFileSystem.open_write(name)` as written calls `AtomicGcsFile(name)`
with a single positional argument although `AtomicGcsFile.__init__`
requires `(path, fs)`, so `open_write` raises `TypeError` instead of
yielding a handle bound to the filesystem — the code contradicts the
claim here. -/
theorem C4_open_write_arity (name : Chars) :
    open_write name = Except.error () ∧
    (∀ fsId, gcsTarget_open_w fsId name = Except.ok ⟨name, fsId⟩) ∧
    (∀ (f : AtomicGcsFile) (staged : Bytes) (st : GcsState),
      move_to_final_destination f staged st =
        put_multipart st staged f.path 67108864) :=
  ⟨rfl, fun _ => rfl, fun _ _ _ => rfl⟩

theorem C4_open_write_arity_witness :
    open_write ("gcs://bucket/key".toList) = Except.error () :=
  (C4_open_write_arity ("gcs://bucket/key".toList)).1

/-- C6: `exists` never raises for absence: a 404 from the
object-metadata call is absorbed by `_get_object` and `exists` falls
back to the directory-prefix check, returning a plain boolean; an
`HttpError` whose status is not 404 is re-raised; a found object yields
`True`; and under the deterministic store the whole call returns the
boolean `exists_`. -/
theorem C6_exists_absorbs_404 (st : GcsState) (path : Chars) :
    exists_core st path (GetResp.httpErr 404) = Except.ok (isdir st path) ∧
    (∀ s, s ≠ 404 → exists_core st path (GetResp.httpErr s) = Except.error s) ∧
    (∀ o, exists_core st path (GetResp.found o) = Except.ok true) ∧
    exists_core st path
        (serviceGet st (path_to_bucket_and_key path).1
          (path_to_bucket_and_key path).2) =
      Except.ok (exists_ st path) := by
  refine ⟨rfl, ?_, fun o => rfl, ?_⟩
  · intro s hs
    simp [exists_core, _get_object, hs]
  · cases h : getObject st (path_to_bucket_and_key path).1
        (path_to_bucket_and_key path).2 with
    | some o => simp [exists_, serviceGet, exists_core, _get_object, h]
    | none => simp [exists_, serviceGet, exists_core, _get_object, h]

theorem C6_exists_absorbs_404_witness :
    exists_core [] [] (GetResp.httpErr 500) = Except.error 500 :=
  (C6_exists_absorbs_404 [] []).2.1 500 (by decide)

/-- C5: `remove` raises `FileSystemException` and issues no delete call
when the key is the bucket root, and likewise when the path names an
existing "directory" with no exact object and the recursive flag is
off; an absent path instead makes `remove` return `False` without
raising. -/
theorem C5_remove_policy_rejections (st : GcsState)
    (path bucket key : Chars) (recursive : Bool)
    (hp : path_to_bucket_and_key path = (bucket, key)) :
    (_is_root key = true →
      remove st path recursive = (RemoveOutcome.exnRoot bucket, [])) ∧
    (_is_root key = false → getObject st bucket key = none →
      isdir st path = true →
      remove st path false = (RemoveOutcome.exnDir key, [])) ∧
    (exists_ st path = false →
      remove st path recursive = (RemoveOutcome.ret false, [])) := by
  refine ⟨?_, ?_, ?_⟩
  · intro hr
    have hex : exists_ st path = true := by
      cases h : getObject st bucket key with
      | some o => simp [exists_, hp, h]
      | none => simp [exists_, hp, h, isdir, hr]
    simp [remove, removeWith, hex, hp, hr]
  · intro hr hobj hdir
    have hex : exists_ st path = true := by
      simp [exists_, hp, hobj, hdir]
    simp [remove, removeWith, hex, hp, hr, hobj]
  · intro hex
    simp [remove, removeWith, hex]

theorem C5_remove_policy_rejections_witness :
    remove [] ("gcs://b".toList) true =
      (RemoveOutcome.exnRoot ("b".toList), []) :=
  (C5_remove_policy_rejections [] ("gcs://b".toList) ("b".toList) [] true
    (by decide)).1 (by decide)

/-- C7: uploading a body through `put_multipart` (single-shot or
multi-chunk, any positive requested chunk size) and reading the object
back yields the byte-identical body; and the lines the read handle
yields (`splitlines(True)` of the fetched body) concatenate to the full
content, byte for byte. -/
theorem C7_upload_read_round_trip (st : GcsState) (body : Bytes)
    (dest : Chars) (c : Nat) (_hc : 0 < c) :
    read (put_multipart st body dest c).1 dest = some body ∧
    (∀ lines, readLines (put_multipart st body dest c).1 dest = some lines →
      lines.flatten = body) := by
  have hread : read (put_multipart st body dest c).1 dest = some body := by
    by_cases h : body.length ≤ c ∨ body.length < MIN_CHUNK_SIZE
    · simp [put_multipart, put, h, read, getObject_insertObject]
    · simp [put_multipart, h, read, getObject_insertObject, chunksOf_flatten]
  refine ⟨hread, ?_⟩
  intro lines hl
  rw [readLines, hread] at hl
  simp at hl
  rw [← hl]
  exact splitlinesKeep_flatten body

theorem C7_upload_read_round_trip_witness :
    read (put_multipart [] [7, 8] ("gcs://b/k".toList) 1).1
        ("gcs://b/k".toList) = some [7, 8] :=
  (C7_upload_read_round_trip [] [7, 8] ("gcs://b/k".toList) 1 (by decide)).1

/-- C8: `isdir` is unconditionally true on the bucket root (empty or
`/`-only key); for any other key it is true iff listing the bucket by
the key with a trailing `/` appended — unless the key already ends in
`/` — returns at least one item. -/
theorem C8_isdir_directory_emulation (st : GcsState)
    (path bucket key : Chars)
    (hp : path_to_bucket_and_key path = (bucket, key)) :
    (_is_root key = true → isdir st path = true) ∧
    (_is_root key = false →
      (isdir st path = true ↔
        listObjects st bucket (_add_path_delimiter key) ≠ [])) ∧
    (key.getLast? = some '/' → _add_path_delimiter key = key) ∧
    (key.getLast? ≠ some '/' → _add_path_delimiter key = key ++ ['/']) := by
  refine ⟨?_, ?_, ?_, ?_⟩
  · intro hr
    simp [isdir, hp, hr]
  · intro hr
    simp [isdir, hp, hr]
  · intro hl
    simp [_add_path_delimiter, hl]
  · intro hl
    simp [_add_path_delimiter, hl]

theorem C8_isdir_directory_emulation_witness :
    isdir stC10 pathC10 = true :=
  ((C8_isdir_directory_emulation stC10 pathC10 ("b".toList) ("dd".toList)
    (by decide)).2.1 (by decide)).mpr (by decide)

theorem takeWhile_append_of_all (p : Char → Bool) (l r : Chars)
    (hl : ∀ x ∈ l, p x = true) :
    (l ++ r).takeWhile p = l ++ r.takeWhile p := by
  induction l with
  | nil => simp
  | cons a l ih =>
    have ha : p a = true := hl a (List.mem_cons_self a l)
    simp [List.takeWhile_cons, ha,
      ih (fun x hx => hl x (List.mem_cons_of_mem a hx))]

theorem dropWhile_append_of_all (p : Char → Bool) (l r : Chars)
    (hl : ∀ x ∈ l, p x = true) :
    (l ++ r).dropWhile p = r.dropWhile p := by
  induction l with
  | nil => simp
  | cons a l ih =>
    have ha : p a = true := hl a (List.mem_cons_self a l)
    simp [List.dropWhile_cons, ha,
      ih (fun x hx => hl x (List.mem_cons_of_mem a hx))]

theorem findColon_append (l r : Chars) (hl : ':' ∉ l) :
    findColon (l ++ ':' :: r) = some (l, r) := by
  induction l with
  | nil => simp [findColon]
  | cons a l ih =>
    have ha : ¬ (a = ':') := by
      intro h
      exact hl (h ▸ List.mem_cons_self a l)
    rw [List.cons_append, findColon]
    simp [ha, ih (fun h => hl (List.mem_cons_of_mem a h))]

/-- C9: for a locator `scheme://bucket/key` with a valid scheme, a
non-empty bucket free of netloc delimiters and a key free of query and
fragment delimiters, `path_to_bucket_and_key` returns the authority
component as the bucket and the path with its leading `/` stripped as
the key, independent of the scheme; and a key is accepted as the bucket
root by `_is_root` exactly when it is empty or a single `/`. -/
theorem C9_path_parsing (scheme bucket key : Chars)
    (hs1 : scheme ≠ []) (hs2 : scheme.all scheme_chars = true)
    (_hb1 : bucket ≠ [])
    (hb2 : ∀ x ∈ bucket, notNetlocDelim x = true)
    (hk : ∀ x ∈ key, notQueryFragDelim x = true) :
    path_to_bucket_and_key
        (scheme ++ (':' :: '/' :: '/' :: (bucket ++ ('/' :: key)))) =
      (bucket, key) ∧
    (∀ k : Chars, _is_root k = true ↔ (k = [] ∨ k = ['/'])) := by
  constructor
  · have hcolon : ':' ∉ scheme := by
      intro hmem
      have hx := (List.all_eq_true.mp hs2) _ hmem
      simp [scheme_chars] at hx
    have htake : (bucket ++ ('/' :: key)).takeWhile notNetlocDelim = bucket := by
      rw [takeWhile_append_of_all _ _ _ hb2]
      simp [List.takeWhile_cons, notNetlocDelim]
    have hdrop : (bucket ++ ('/' :: key)).dropWhile notNetlocDelim =
        '/' :: key := by
      rw [dropWhile_append_of_all _ _ _ hb2]
      simp [List.dropWhile_cons, notNetlocDelim]
    have hkey : ('/' :: key).takeWhile notQueryFragDelim = '/' :: key := by
      have h2 := takeWhile_append_of_all notQueryFragDelim key [] hk
      simp only [List.append_nil] at h2
      simp [List.takeWhile_cons, notQueryFragDelim, h2]
    have hfc :
        findColon (scheme ++ (':' :: '/' :: '/' :: (bucket ++ ('/' :: key)))) =
          some (scheme, '/' :: '/' :: (bucket ++ ('/' :: key))) :=
      findColon_append scheme ('/' :: '/' :: (bucket ++ ('/' :: key))) hcolon
    have hsplit :
        splitScheme (scheme ++ (':' :: '/' :: '/' :: (bucket ++ ('/' :: key)))) =
          '/' :: '/' :: (bucket ++ ('/' :: key)) := by
      simp only [splitScheme, hfc]
      simp [hs1, hs2]
    have hnp :
        urlsplitNetlocPath
            (scheme ++ (':' :: '/' :: '/' :: (bucket ++ ('/' :: key)))) =
          (bucket, '/' :: key) := by
      simp only [urlsplitNetlocPath, hsplit]
      rw [htake, hdrop, hkey]
    simp [path_to_bucket_and_key, hnp]
  · intro k
    cases k with
    | nil => simp [_is_root]
    | cons a l => simp [_is_root]

theorem C9_path_parsing_witness :
    path_to_bucket_and_key ("gcs://bucket/some/long/long/key".toList) =
      ("bucket".toList, "some/long/long/key".toList) :=
  (C9_path_parsing ("gcs".toList) ("bucket".toList)
    ("some/long/long/key".toList) (by decide) (by decide) (by decide)
    (by decide) (by decide)).1

/-- C10 counterexample: on a store holding only `dd/x` in bucket `b`,
recursively removing the directory locator `gcs://b/dd` succeeds and
deletes `dd/x` in the current module, but raises in the legacy module —
because the legacy `remove` consults `isdir` on the bare key `dd`,
which reparses as bucket `""` and key `d`. -/
theorem C10_remove_modules_differ :
    remove stC10 pathC10 true ≠ remove_legacy stC10 pathC10 true := by
  decide

/-- C10 (amended): the two `remove` implementations agree — same
outcome and same sequence of delete calls — whenever the path does not
exist, or the key is the bucket root, or an exact object exists at the
key, or the recursive flag is off; they diverge only in the remaining
case, the recursive removal of an existing directory prefix, where the
legacy module passes the bare key instead of the full path to `isdir`. -/
theorem C10_remove_equiv_amended (st : GcsState) (path bucket key : Chars)
    (recursive : Bool)
    (hp : path_to_bucket_and_key path = (bucket, key))
    (h : exists_ st path = false ∨ _is_root key = true ∨
      getObject st bucket key ≠ none ∨ recursive = false) :
    remove st path recursive = remove_legacy st path recursive := by
  unfold remove remove_legacy removeWith
  rcases h with h | h | h | h
  · simp [h]
  · simp [hp, h]
  · rcases ho : getObject st bucket key with _ | o
    · exact absurd ho h
    · simp [hp, ho]
  · subst h
    simp [hp]

theorem C10_remove_equiv_amended_witness :
    remove stC10 ("gcs://b/dd/x".toList) true =
      remove_legacy stC10 ("gcs://b/dd/x".toList) true :=
  C10_remove_equiv_amended stC10 ("gcs://b/dd/x".toList) ("b".toList)
    ("dd/x".toList) true (by decide)
    (Or.inr (Or.inr (Or.inl (by decide))))

end Gcs
